import Mathlib

/-!
Verification development for the secret-santa bot (`src/main.py`).

The embedding models the group/membership store (`GroupState` and its
methods), the command handlers that the claims reference
(`create_group`, `join_group`, `leave_group`, the `accept@` callback of
`handle_settings_change`, the roster construction of `start_matching`),
and the matching engine (`secret_santa_pairing`, `loop`, `is_valid`,
`dictize`).

Modelling conventions:
* Telegram `User` objects compare by `id` (both `__eq__` and `__hash__`
  use only the id), so participants are modelled by their `Nat` id; the
  display name is never used for identity.
* Python `dict`s are modelled as association lists with Python's
  assignment semantics (`dinsert`: update the existing entry in place,
  else append) and `pop` (`dpop`).
* Python dict keys can mix `int` and `str`; `int` and `str` values are
  never equal under Python `==`.  `PyVal` reflects this: group ids are
  created as ints (`Group(id=update.effective_user.id, ...)`) but the
  `/join_group` handler receives its argument as a string.
* Exceptions (`GroupStateException`, `AssertionError`, `AttributeError`)
  are modelled with `Except`; an operation that raises before mutating
  leaves the state unchanged, exactly as in the source.
* The matching loop's `random.shuffle` is modelled by a stream
  `shuffle : Nat → List Nat` of shuffle outcomes (the k-th reshuffle of
  the roster), and the wall-clock deadline (`TIMEOUT = 0.2` seconds,
  checked once per iteration) by an iteration budget `fuel`.
-/

namespace SecretSanta

/-- A Python value used as a dict key: group ids are `int`s when groups are
created, but command arguments arrive as `str`; Python `==` never equates
an `int` with a `str`. -/
inductive PyVal where
  | int (n : Nat)
  | str (s : String)
deriving DecidableEq, Repr

/-- Python dict lookup `d.get(k)` on an association list. -/
def dlookup {κ α : Type} [DecidableEq κ] (d : List (κ × α)) (k : κ) : Option α :=
  match d with
  | [] => none
  | p :: ps => if p.1 = k then some p.2 else dlookup ps k

/-- Python dict lookup with a default, `d.get(k, dflt)`. -/
def dlookupD {κ α : Type} [DecidableEq κ] (d : List (κ × α)) (k : κ) (dflt : α) : α :=
  (dlookup d k).getD dflt

/-- Python dict assignment `d[k] = v`: update the existing entry in place,
keeping its position, or append a new entry at the end. -/
def dinsert {κ α : Type} [DecidableEq κ] (d : List (κ × α)) (k : κ) (v : α) : List (κ × α) :=
  match d with
  | [] => [(k, v)]
  | p :: ps => if p.1 = k then (k, v) :: ps else p :: dinsert ps k v

/-- Python dict removal `d.pop(k, None)`: drop the entry with key `k`. -/
def dpop {κ α : Type} [DecidableEq κ] (d : List (κ × α)) (k : κ) : List (κ × α) :=
  d.filter (fun p => decide (p.1 ≠ k))

/-- The matching engine works on rosters of user ids; `dictize`
(src/main.py lines 605-611) folds `people[last_person] = this_person`
over the shuffled list, starting from `last_person = people_list[-1]`. -/
def dictizeGo : Nat → List Nat → List (Nat × Nat) → List (Nat × Nat)
  | _, [], people => people
  | last, p :: ps, people => dictizeGo p ps (dinsert people last p)

/-- `dictize` (src/main.py lines 605-611).  The source raises `IndexError`
on an empty input (`people_list[-1]`); the claims only concern non-empty
rosters, for which the `[]` case is never reached. -/
def dictize (people_list : List Nat) : List (Nat × Nat) :=
  match people_list with
  | [] => []
  | x :: xs => dictizeGo ((x :: xs).getLast (List.cons_ne_nil x xs)) (x :: xs) []

/-- `is_valid` (src/main.py lines 598-602): a candidate dict is valid when
no gifter is assigned a giftee from their forbidden list.  The
`invalid_links` dict with its `.get(gifter, ())` default is modelled as a
total function returning the (possibly empty) forbidden list. -/
def is_valid (people_dict : List (Nat × Nat)) (invalid_links : Nat → List Nat) : Bool :=
  people_dict.all (fun p => ! (invalid_links p.1).contains p.2)

/-- The retry loop body of `loop` (src/main.py lines 586-595).  `k` indexes
the current shuffle outcome; `fuel` is the number of further iterations the
wall clock allows before `start_time + TIMEOUT < time.time()` holds and
`ValueError("Could not solve.")` is raised. -/
def loopGo (shuffle : Nat → List Nat) (invalid_links : Nat → List Nat) :
    Nat → Nat → Except String (List (Nat × Nat))
  | k, fuel =>
    if is_valid (dictize (shuffle k)) invalid_links then .ok (dictize (shuffle k))
    else
      match fuel with
      | 0 => .error "Could not solve."
      | f + 1 => loopGo shuffle invalid_links (k + 1) f

/-- `loop` (src/main.py lines 586-595): shuffle the users, then retry until
the candidate built by `dictize` passes `is_valid` or the deadline expires.
The in-place `random.shuffle(users)` calls are modelled by the stream
`shuffle` (theorems constrain each `shuffle k` to be a permutation of
`users`), and the 200 ms wall-clock deadline by the iteration budget
`fuel`. -/
def loop (users : List Nat) (invalid_links : Nat → List Nat)
    (shuffle : Nat → List Nat) (fuel : Nat) : Except String (List (Nat × Nat)) :=
  let _ := users
  loopGo shuffle invalid_links 0 fuel

/-- `secret_santa_pairing` (src/main.py lines 566-578): runs `loop` with an
empty `invalid_links` dict. -/
def secret_santa_pairing (users : List Nat) (shuffle : Nat → List Nat) (fuel : Nat) :
    Except String (List (Nat × Nat)) :=
  loop users (fun _ => []) shuffle fuel

/-- The forbidden relation of the two-person infeasible instance: the pair
`1 → 2` is forbidden, which rules out every cyclic assignment of `[1, 2]`. -/
def badInvalid : Nat → List Nat := fun g => if g = 1 then [2] else []

/-- The rotation `people_list[-1] :: people_list[:-1]`; for a duplicate-free
roster, `dictize` produces exactly the dict pairing `rotR l` with `l`
position-wise. -/
def rotR (l : List Nat) : List Nat :=
  match l with
  | [] => []
  | x :: xs => (x :: xs).getLast (List.cons_ne_nil x xs) :: (x :: xs).dropLast

/-- Following a giver-to-receiver link in an assignment dict (identity on
ids that are not givers, which never happens for `dictize` output). -/
def assignNext (d : List (Nat × Nat)) (x : Nat) : Nat :=
  (dlookup d x).getD x

/-- `Settings` (src/main.py lines 40-44): `accept_odd` and `include_admin`
start out `False`.  The `deadline` field (a wall-clock timestamp) is not
used by any claim and is omitted. -/
structure Settings where
  accept_odd : Bool
  include_admin : Bool
deriving DecidableEq, Repr

/-- `Group` (src/main.py lines 33-37): id, admin and settings.  This
iteration's `Group` has no `users` attribute; `leave_group` and
`start_matching` nevertheless access one (see `botValUsers`). -/
structure Group where
  id : PyVal
  admin : Nat
  settings : Settings
deriving DecidableEq, Repr

/-- `Settings()` as constructed by `Group.__init__`. -/
def defaultSettings : Settings := ⟨false, false⟩

/-- `GroupState` (src/main.py lines 57-61): the three private dicts.  The
`User` objects stored in `__user_to_group` and `__pending_requests` values
carry no information beyond their id (identity is by id), so the values
keep only the group id(s). -/
structure GroupState where
  groups : List (PyVal × Group)
  user_to_group : List (Nat × PyVal)
  pending_requests : List (Nat × List PyVal)
deriving DecidableEq, Repr

/-- `GroupState()`: all three dicts start empty. -/
def emptyState : GroupState := ⟨[], [], []⟩

/-- `GroupStateException` reasons raised by the store methods. -/
inductive StoreError where
  | groupNotExists
  | alreadyInGroup
  | noPendingRequest
  | notInAnyGroup
  | notPendingAnyGroup
deriving DecidableEq, Repr

/-- `GroupState.get_group` (src/main.py lines 63-65). -/
def get_group (s : GroupState) (group_id : PyVal) : Option Group :=
  dlookup s.groups group_id

/-- `GroupState.get_user_group` (src/main.py lines 67-69). -/
def get_user_group (s : GroupState) (user_id : Nat) : Option PyVal :=
  dlookup s.user_to_group user_id

/-- `GroupState.add_group` (src/main.py lines 71-73): registers the group
under its own id.  It does not touch `__user_to_group`: the admin never
receives a membership record. -/
def add_group (s : GroupState) (g : Group) : GroupState :=
  { s with groups := dinsert s.groups g.id g }

/-- `GroupState.add_pending_request` (src/main.py lines 75-87).  After the
two guard checks it appends the group id to the user's pending list
(`setdefault(user.id, (user, []))[1].append(group_id)`): a user already
pending gets a second entry rather than an error. -/
def add_pending_request (s : GroupState) (uid : Nat) (group_id : PyVal) :
    Except StoreError GroupState :=
  if (dlookup s.groups group_id).isNone then .error .groupNotExists
  else if (dlookup s.user_to_group uid).isSome then .error .alreadyInGroup
  else
    .ok { s with
          pending_requests :=
            dinsert s.pending_requests uid
              (dlookupD s.pending_requests uid [] ++ [group_id]) }

/-- `GroupState.approve_pending_request` (src/main.py lines 89-105): adds
the user to `__user_to_group` and pops their whole pending entry. -/
def approve_pending_request (s : GroupState) (uid : Nat) (group_id : PyVal) :
    Except StoreError GroupState :=
  if (dlookup s.groups group_id).isNone then .error .groupNotExists
  else if group_id ∉ dlookupD s.pending_requests uid [] then .error .noPendingRequest
  else .ok { s with
    user_to_group := dinsert s.user_to_group uid group_id,
    pending_requests := dpop s.pending_requests uid }

/-- `GroupState.remove_user_from_group` (src/main.py lines 107-113): pops
the user's entry; raises when there was none (the pop of a missing key is
a no-op, so the failing call leaves the state unchanged). -/
def remove_user_from_group (s : GroupState) (uid : Nat) :
    Except StoreError GroupState :=
  match dlookup s.user_to_group uid with
  | none => .error .notInAnyGroup
  | some _ => .ok { s with user_to_group := dpop s.user_to_group uid }

/-- `GroupState.remove_user_from_pending_group` (src/main.py lines
115-121). -/
def remove_user_from_pending_group (s : GroupState) (uid : Nat) :
    Except StoreError GroupState :=
  match dlookup s.pending_requests uid with
  | none => .error .notPendingAnyGroup
  | some _ => .ok { s with pending_requests := dpop s.pending_requests uid }

/-- `GroupState.is_user_in_group` (src/main.py lines 136-138). -/
def is_user_in_group (s : GroupState) (uid : Nat) : Bool :=
  (dlookup s.user_to_group uid).isSome

/-- `GroupState.is_user_pending` (src/main.py lines 140-141). -/
def is_user_pending (s : GroupState) (uid : Nat) : Bool :=
  (dlookup s.pending_requests uid).isSome

/-- `GroupState.is_user_in_group_or_pending` (src/main.py lines 143-144). -/
def is_user_in_group_or_pending (s : GroupState) (uid : Nat) : Bool :=
  is_user_pending s uid || is_user_in_group s uid

/-- `GroupState.is_user_admin` (src/main.py lines 146-150): scans all
groups for one whose admin has this id. -/
def is_user_admin (s : GroupState) (uid : Nat) : Bool :=
  s.groups.any (fun p => decide (p.2.admin = uid))

/-- `GroupState.get_pending_request_for_user` (src/main.py lines
131-134). -/
def get_pending_request_for_user (s : GroupState) (uid : Nat) : Option (List PyVal) :=
  dlookup s.pending_requests uid

/-- One membership-store operation, as invoked by the handlers. -/
inductive StoreOp where
  | addGroup (g : Group)
  | addPending (uid : Nat) (group_id : PyVal)
  | approve (uid : Nat) (group_id : PyVal)
  | removeFromGroup (uid : Nat)
  | removeFromPending (uid : Nat)
deriving DecidableEq, Repr

/-- Apply one store operation; a raised `GroupStateException` propagates to
the caller and leaves the store unchanged (every store method raises before
mutating). -/
def applyOp (s : GroupState) (op : StoreOp) : GroupState :=
  match op with
  | .addGroup g => add_group s g
  | .addPending uid gid => ((add_pending_request s uid gid).toOption).getD s
  | .approve uid gid => ((approve_pending_request s uid gid).toOption).getD s
  | .removeFromGroup uid => ((remove_user_from_group s uid).toOption).getD s
  | .removeFromPending uid => ((remove_user_from_pending_group s uid).toOption).getD s

/-- Run a sequence of store operations from the empty store. -/
def runOps (ops : List StoreOp) : GroupState :=
  ops.foldl applyOp emptyState

/-- The replies the modelled handlers can send (`reply_text` /
`edit_message_text` literals in src/main.py). -/
inductive Reply where
  /-- "you are already in a group." / "You are already in a group." -/
  | alreadyInGroup
  /-- "Group created successfully! Your group ID is: ..." -/
  | groupCreated (group_id : PyVal)
  /-- "Invalid group ID." -/
  | invalidGroupId
  /-- "You have requested to join group ..." -/
  | joinRequested (group_id : PyVal)
  /-- "Sorry the user has not requested to join any group" -/
  | sorryNotRequested
  /-- "User accepted." -/
  | userAccepted
  /-- "You are not qualified to add a user to a group." -/
  | notQualified
  /-- "You are not part of any group." -/
  | notPartOfAnyGroup
  /-- "You cannot leave your own group." -/
  | cannotLeaveOwnGroup
  /-- "You have left the group." -/
  | leftGroup
  /-- "You are not an admin or not part of any group." -/
  | notAdminOrNoGroup
  /-- "Not enough participants for matching." -/
  | notEnoughParticipants
deriving DecidableEq, Repr

/-- Uncaught Python exceptions escaping a handler. -/
inductive PyExn where
  | groupStateException (e : StoreError)
  | assertionError
  | attributeError
deriving DecidableEq, Repr

/-- `create_group` (src/main.py lines 196-221): builds
`Group(id=update.effective_user.id, admin=update.effective_user)` — the
group id IS the admin's user id — rejects a user who is in a group,
pending, or an admin, and otherwise only registers the group.  The admin
is never added to `__user_to_group`. -/
def create_group (s : GroupState) (uid : Nat) : GroupState × Reply :=
  let g : Group := ⟨.int uid, uid, defaultSettings⟩
  if is_user_in_group_or_pending s uid || is_user_admin s uid then (s, .alreadyInGroup)
  else (add_group s g, .groupCreated (.int uid))

/-- `join_group` (src/main.py lines 224-287).  `arg` is
`context.args[0]`, always a string; the membership test
`group_id not in group_state.get_all_groups()` compares it against the
integer keys produced by `create_group`.  On the (unreachable for
int-keyed stores) success path the handler calls `add_pending_request`
and then `remove_user_from_group`, whose `GroupStateException` would
propagate uncaught. -/
def join_group (s : GroupState) (uid : Nat) (arg : String) :
    Except PyExn (GroupState × Reply) :=
  if (dlookup s.groups (.str arg)).isNone then .ok (s, .invalidGroupId)
  else if is_user_in_group s uid || is_user_admin s uid then .ok (s, .alreadyInGroup)
  else
    match add_pending_request s uid (.str arg) with
    | .error e => .error (.groupStateException e)
    | .ok s1 =>
      match remove_user_from_group s1 uid with
      | .error e => .error (.groupStateException e)
      | .ok s2 => .ok (s2, .joinRequested (.str arg))

/-- The `accept@` branch of `handle_settings_change` (src/main.py lines
375-427), the code path that implements `approve(adminId, targetUid)`:
after the guards it scans the groups for the first one administered by the
caller and then calls `add_pending_request` — not
`approve_pending_request` — on the target. -/
def acceptCallback (s : GroupState) (adminId : Nat) (targetUid : Nat) :
    Except PyExn (GroupState × Reply) :=
  match get_pending_request_for_user s targetUid with
  | some pend =>
    if is_user_in_group s targetUid then .ok (s, .alreadyInGroup)
    else if is_user_admin s targetUid then .ok (s, .alreadyInGroup)
    else
      match s.groups.find? (fun p => decide (p.2.admin = adminId)) with
      | some (group_id, g) =>
        if g.id ∉ pend then .ok (s, .sorryNotRequested)
        else
          match add_pending_request s targetUid group_id with
          | .error e => .error (.groupStateException e)
          | .ok s1 => .ok (s1, .userAccepted)
      | none => .ok (s, .notQualified)
  | none =>
    match s.groups.find? (fun p => decide (p.2.admin = adminId)) with
    | some _ => .error .assertionError
    | none => .ok (s, .notQualified)

/-- A value stored in `context.bot_data`: the handlers `leave_group`,
`settings`, `all_users` and `start_matching` iterate over
`context.bot_data.values()` as if it were a dict of groups, but it holds
the `GroupState` under the key "group_state" (and possibly `Group` objects
stored by `handle_settings_change`). -/
inductive BotVal where
  | state (gs : GroupState)
  | group (g : Group)
deriving DecidableEq, Repr

/-- The attribute access `group.users`: neither `GroupState` nor this
iteration's `Group` (fields `id`, `admin`, `settings` only, lines 33-37)
defines a `users` attribute, so the access raises `AttributeError` —
modelled as `none`. -/
def botValUsers : BotVal → Option (List Nat)
  | _ => none

/-- `leave_group` (src/main.py lines 289-313): iterates
`for group in context.bot_data.values(): for user in group.users: ...`.
With an empty `bot_data` the loop body never runs and the handler replies
"You are not part of any group."; otherwise the very first `group.users`
access raises `AttributeError` before any check or mutation.  (The
`some` branch is unreachable because `botValUsers` is always `none`.) -/
def leave_group (botData : List (PyVal × BotVal)) (uid : Nat) : Except PyExn Reply :=
  let _ := uid
  match botData with
  | [] => .ok .notPartOfAnyGroup
  | v :: _ =>
    match botValUsers v.2 with
    | none => .error .attributeError
    | some _ => .ok .notPartOfAnyGroup

/-- `start_matching`'s admin search (src/main.py lines 490-509): the same
`for group in context.bot_data.values(): for user in group.users: ...`
pattern as `leave_group`, with the same `AttributeError`; an empty
`bot_data` falls through to "You are not an admin or not part of any
group.". -/
def start_matching (botData : List (PyVal × BotVal)) (adminId : Nat) : Except PyExn Reply :=
  let _ := adminId
  match botData with
  | [] => .ok .notAdminOrNoGroup
  | v :: _ =>
    match botValUsers v.2 with
    | none => .error .attributeError
    | some _ => .ok .notAdminOrNoGroup

/-- The roster construction of `start_matching` (src/main.py lines
511-517): `users = group.users` followed by `users.append(group.admin)`.
The guard `if group.settings.include_admin:` on line 514 is commented out,
so the admin is appended unconditionally and the flag is ignored. -/
def matchingRoster (users : List Nat) (admin : Nat) (include_admin : Bool) : List Nat :=
  let _ := include_admin
  users ++ [admin]

/-- The group created by `create_group` for user 1 (`Group(id=1, admin=1)`). -/
def groupOne : Group := ⟨.int 1, 1, defaultSettings⟩

/-- The group created by `create_group` for user 2. -/
def groupTwo : Group := ⟨.int 2, 2, defaultSettings⟩

/-- A reachable store: user 1 created group 1 and user 2 is pending for it. -/
def statePending2 : GroupState := runOps [.addGroup groupOne, .addPending 2 (.int 1)]

/-- `context.bot_data` after user 1 ran `/create_group`: it holds the
`GroupState` under the string key "group_state". -/
def botDataAfterCreate : List (PyVal × BotVal) :=
  [(.str "group_state", .state (runOps [.addGroup groupOne]))]

/-- Whether a Python dict key is an `int`. -/
def isIntKey : PyVal → Bool
  | .int _ => true
  | .str _ => false

/-! ## Lemmas about the Python-dict model -/

theorem dlookup_dinsert_self {κ α : Type} [DecidableEq κ] (d : List (κ × α)) (k : κ) (v : α) :
    dlookup (dinsert d k v) k = some v := by
  induction d with
  | nil => simp [dinsert, dlookup]
  | cons p ps ih =>
    by_cases h : p.1 = k
    · simp [dinsert, h, dlookup]
    · simp [dinsert, h, dlookup, ih]

theorem dlookup_dinsert_ne {κ α : Type} [DecidableEq κ] (d : List (κ × α)) (k k' : κ) (v : α)
    (hne : k' ≠ k) : dlookup (dinsert d k v) k' = dlookup d k' := by
  have hkk : ¬ (k = k') := fun hh => hne hh.symm
  induction d with
  | nil => simp [dinsert, dlookup, hkk]
  | cons p ps ih =>
    by_cases h : p.1 = k
    · have hp : ¬ (p.1 = k') := by
        rw [h]
        exact hkk
      simp [dinsert, h, dlookup, hkk, hp]
    · simp [dinsert, h, dlookup, ih]

theorem dlookup_dpop_self {κ α : Type} [DecidableEq κ] (d : List (κ × α)) (k : κ) :
    dlookup (dpop d k) k = none := by
  induction d with
  | nil => rfl
  | cons p ps ih =>
    by_cases h : p.1 = k
    · simp [dpop, h] at ih ⊢
      exact ih
    · simp [dpop, h, dlookup] at ih ⊢
      exact ih

theorem dlookup_dpop_ne {κ α : Type} [DecidableEq κ] (d : List (κ × α)) (k k' : κ)
    (hne : k' ≠ k) : dlookup (dpop d k) k' = dlookup d k' := by
  induction d with
  | nil => rfl
  | cons p ps ih =>
    by_cases h : p.1 = k
    · have hp : ¬ (p.1 = k') := by
        rw [h]
        exact fun hh => hne hh.symm
      have e1 : dpop (p :: ps) k = dpop ps k := by
        simp [dpop, List.filter_cons, h]
      rw [e1, ih, dlookup]
      simp [hp]
    · have e2 : dpop (p :: ps) k = p :: dpop ps k := by
        simp [dpop, List.filter_cons, h]
      rw [e2, dlookup, dlookup, ih]

theorem mem_of_dlookup {κ α : Type} [DecidableEq κ] (d : List (κ × α)) (k : κ) (v : α)
    (h : dlookup d k = some v) : (k, v) ∈ d := by
  induction d with
  | nil => simp [dlookup] at h
  | cons p ps ih =>
    rw [dlookup] at h
    by_cases hk : p.1 = k
    · simp [hk] at h
      cases p
      simp_all
    · simp [hk] at h
      exact List.mem_cons_of_mem _ (ih h)

theorem dlookup_of_mem {κ α : Type} [DecidableEq κ] (d : List (κ × α))
    (hnd : (d.map Prod.fst).Nodup) (k : κ) (v : α) (hm : (k, v) ∈ d) :
    dlookup d k = some v := by
  induction d with
  | nil => simp at hm
  | cons p ps ih =>
    simp only [List.map_cons, List.nodup_cons] at hnd
    rcases List.mem_cons.mp hm with h | h
    · rw [← h, dlookup]
      simp
    · have hk : p.1 ≠ k := by
        intro he
        exact hnd.1 (he ▸ List.mem_map.mpr ⟨(k, v), h, rfl⟩)
      rw [dlookup]
      simp [hk, ih hnd.2 h]

theorem dinsert_of_fresh {κ α : Type} [DecidableEq κ] (d : List (κ × α)) (k : κ) (v : α)
    (h : ∀ q ∈ d, q.1 ≠ k) : dinsert d k v = d ++ [(k, v)] := by
  induction d with
  | nil => rfl
  | cons p ps ih =>
    have hp : p.1 ≠ k := h p (by simp)
    simp [dinsert, hp, ih (fun q hq => h q (by simp [hq]))]

/-! ## The cyclic structure of `dictize` -/

theorem dictizeGo_eq (rest : List Nat) : ∀ (last : Nat) (acc : List (Nat × Nat)),
    ((last :: rest).dropLast).Nodup →
    (∀ q ∈ acc, q.1 ∉ (last :: rest).dropLast) →
    dictizeGo last rest acc = acc ++ ((last :: rest).dropLast).zip rest := by
  induction rest with
  | nil =>
    intro last acc _ _
    simp [dictizeGo]
  | cons p ps ih =>
    intro last acc hnd hacc
    have hdl : (last :: p :: ps).dropLast = last :: (p :: ps).dropLast := rfl
    rw [hdl] at hnd hacc ⊢
    have hnd' : ((p :: ps).dropLast).Nodup := (List.nodup_cons.mp hnd).2
    have hlast_nin : last ∉ (p :: ps).dropLast := (List.nodup_cons.mp hnd).1
    have hfresh : ∀ q ∈ acc, q.1 ≠ last := by
      intro q hq he
      exact hacc q hq (by rw [he]; exact List.mem_cons_self last _)
    show dictizeGo p ps (dinsert acc last p) = acc ++ (last :: (p :: ps).dropLast).zip (p :: ps)
    rw [dinsert_of_fresh acc last p hfresh]
    rw [ih p (acc ++ [(last, p)]) hnd' ?hacc2]
    · simp [List.zip_cons_cons]
    case hacc2 =>
      intro q hq
      rcases List.mem_append.mp hq with h1 | h2
      · intro hmem
        exact hacc q h1 (List.mem_cons_of_mem _ hmem)
      · simp only [List.mem_singleton] at h2
        rw [h2]
        exact hlast_nin

theorem dictize_eq_zip (l : List Nat) (hnd : l.Nodup) : dictize l = (rotR l).zip l := by
  cases l with
  | nil => rfl
  | cons x xs =>
    have hgl := List.dropLast_append_getLast (List.cons_ne_nil x xs)
    have hrotnd : (rotR (x :: xs)).Nodup := by
      have h := hnd
      rw [← hgl] at h
      rw [List.nodup_append] at h
      refine List.nodup_cons.mpr ⟨?_, h.1⟩
      intro hmem
      exact h.2.2 hmem (by simp)
    have hdl : (((x :: xs).getLast (List.cons_ne_nil x xs)) :: x :: xs).dropLast
        = rotR (x :: xs) := rfl
    show dictizeGo ((x :: xs).getLast (List.cons_ne_nil x xs)) (x :: xs) []
        = (rotR (x :: xs)).zip (x :: xs)
    rw [dictizeGo_eq (x :: xs) ((x :: xs).getLast (List.cons_ne_nil x xs)) []
      (by rw [hdl]; exact hrotnd) (by simp), hdl]
    simp

theorem rotR_length (l : List Nat) : (rotR l).length = l.length := by
  cases l with
  | nil => rfl
  | cons x xs =>
    simp [rotR, List.length_dropLast]

theorem rotR_nodup (l : List Nat) (hnd : l.Nodup) : (rotR l).Nodup := by
  cases l with
  | nil => simp [rotR]
  | cons x xs =>
    have hgl := List.dropLast_append_getLast (List.cons_ne_nil x xs)
    rw [← hgl] at hnd
    rw [List.nodup_append] at hnd
    refine List.nodup_cons.mpr ⟨?_, hnd.1⟩
    intro hmem
    exact hnd.2.2 hmem (by simp)

theorem rotR_perm (l : List Nat) : (rotR l).Perm l := by
  cases l with
  | nil => simp [rotR]
  | cons x xs =>
    have h := (List.perm_append_singleton ((x :: xs).getLast (List.cons_ne_nil x xs))
      ((x :: xs).dropLast)).symm
    rw [List.dropLast_append_getLast] at h
    exact h

theorem dictize_length (l : List Nat) (hnd : l.Nodup) : (dictize l).length = l.length := by
  rw [dictize_eq_zip l hnd, List.length_zip (rotR l) l, rotR_length]
  simp

theorem dictize_map_fst (l : List Nat) (hnd : l.Nodup) :
    (dictize l).map Prod.fst = rotR l := by
  rw [dictize_eq_zip l hnd]
  exact List.map_fst_zip (rotR l) l (by rw [rotR_length])

theorem dictize_map_snd (l : List Nat) (hnd : l.Nodup) :
    (dictize l).map Prod.snd = l := by
  rw [dictize_eq_zip l hnd]
  exact List.map_snd_zip (rotR l) l (by rw [rotR_length])

theorem rotR_getElem_ne (l : List Nat) (hnd : l.Nodup) (hlen : 2 ≤ l.length)
    (i : Nat) (hi : i < l.length) (hir : i < (rotR l).length) :
    (rotR l)[i] ≠ l[i] := by
  cases l with
  | nil => simp at hi
  | cons x xs =>
    simp only [rotR]
    cases i with
    | zero =>
      rw [List.getElem_cons_zero, List.getElem_cons_zero, List.getLast_eq_getElem]
      intro he
      have hlb : (x :: xs).length - 1 < (x :: xs).length := by simp
      have h0b : 0 < (x :: xs).length := by simp
      have hee : (x :: xs)[(x :: xs).length - 1] = (x :: xs)[0] := by
        rw [List.getElem_cons_zero]
        exact he
      have hidx := (List.Nodup.getElem_inj_iff hnd).mp hee
      simp only [List.length_cons] at hidx hlen
      omega
    | succ j =>
      have hj : j < ((x :: xs).dropLast).length := by
        rw [List.length_dropLast]
        simp only [List.length_cons] at hi ⊢
        omega
      rw [List.getElem_cons_succ, List.getElem_dropLast]
      intro he
      have := (List.Nodup.getElem_inj_iff hnd).mp he
      omega

theorem dictize_no_self (l : List Nat) (hnd : l.Nodup) (hlen : 2 ≤ l.length) :
    ∀ p ∈ dictize l, p.1 ≠ p.2 := by
  intro p hp
  rw [dictize_eq_zip l hnd] at hp
  obtain ⟨i, hi, he⟩ := List.mem_iff_getElem.mp hp
  have hi2 : i < l.length := by
    rw [List.length_zip (rotR l) l, rotR_length] at hi
    simpa using hi
  have hir : i < (rotR l).length := by
    rw [rotR_length]
    exact hi2
  rw [List.getElem_zip] at he
  intro hcontra
  refine rotR_getElem_ne l hnd hlen i hi2 hir ?_
  have h1 : (rotR l)[i] = p.1 := by
    rw [← he]
  have h2 : l[i] = p.2 := by
    rw [← he]
  rw [h1, h2, hcontra]

theorem rotR_getElem_zero (l : List Nat) (h0 : 0 < l.length) (h0r : 0 < (rotR l).length) :
    (rotR l)[0] = l[l.length - 1] := by
  cases l with
  | nil => simp at h0
  | cons x xs =>
    simp only [rotR]
    rw [List.getElem_cons_zero, List.getLast_eq_getElem]

theorem rotR_getElem_succ (l : List Nat) (j : Nat) (hj : j + 1 < l.length)
    (hjr : j + 1 < (rotR l).length) :
    (rotR l)[j + 1] = l[j] := by
  cases l with
  | nil => simp at hj
  | cons x xs =>
    have hjd : j < ((x :: xs).dropLast).length := by
      rw [List.length_dropLast]
      simp only [List.length_cons] at hj ⊢
      omega
    simp only [rotR]
    rw [List.getElem_cons_succ, List.getElem_dropLast]

theorem assignNext_dictize (l : List Nat) (hnd : l.Nodup) (i : Nat) (hi : i < l.length)
    (hj : (i + 1) % l.length < l.length) :
    assignNext (dictize l) l[i] = l[(i + 1) % l.length] := by
  have hn : 0 < l.length := by omega
  have hjr : (i + 1) % l.length < (rotR l).length := by
    rw [rotR_length]
    exact hj
  have hmem : ((rotR l)[(i + 1) % l.length], l[(i + 1) % l.length]) ∈ dictize l := by
    rw [dictize_eq_zip l hnd]
    have hz : ((i + 1) % l.length) < ((rotR l).zip l).length := by
      rw [List.length_zip, rotR_length]
      simpa using hj
    have hm := List.getElem_mem hz
    rw [List.getElem_zip] at hm
    exact hm
  have hkey : (rotR l)[(i + 1) % l.length] = l[i] := by
    by_cases hcase : i + 1 < l.length
    · have hmod : (i + 1) % l.length = i + 1 := Nat.mod_eq_of_lt hcase
      simp_rw [hmod]
      exact rotR_getElem_succ l i hcase (by rw [rotR_length]; exact hcase)
    · have hieq : i + 1 = l.length := by omega
      have hmod : (i + 1) % l.length = 0 := by rw [hieq, Nat.mod_self]
      simp_rw [hmod]
      rw [rotR_getElem_zero l hn (by rw [rotR_length]; exact hn)]
      have hli : l.length - 1 = i := by omega
      simp_rw [hli]
  have hlk : dlookup (dictize l) l[i] = some (l[(i + 1) % l.length]) := by
    rw [← hkey]
    exact dlookup_of_mem (dictize l)
      (by rw [dictize_map_fst l hnd]; exact rotR_nodup l hnd) _ _ hmem
  rw [assignNext, hlk]
  rfl

theorem assignNext_iterate (l : List Nat) (hnd : l.Nodup) (i : Nat) (hi : i < l.length) :
    ∀ k : Nat, ∀ hk : (i + k) % l.length < l.length,
      (assignNext (dictize l))^[k] l[i] = l[(i + k) % l.length] := by
  have hn : 0 < l.length := by omega
  intro k
  induction k with
  | zero =>
    intro hk
    simp_rw [Function.iterate_zero_apply]
    have hmod : (i + 0) % l.length = i := by
      rw [Nat.add_zero, Nat.mod_eq_of_lt hi]
    simp_rw [hmod]
  | succ m ihm =>
    intro hk
    have him : (i + m) % l.length < l.length := Nat.mod_lt _ hn
    rw [Function.iterate_succ_apply', ihm him]
    rw [assignNext_dictize l hnd ((i + m) % l.length) him (Nat.mod_lt _ hn)]
    have hmod : ((i + m) % l.length + 1) % l.length = (i + (m + 1)) % l.length := by
      rw [Nat.mod_add_mod, Nat.add_assoc]
    simp_rw [hmod]

theorem is_valid_empty (d : List (Nat × Nat)) : is_valid d (fun _ => []) = true := by
  simp [is_valid]

theorem loopGo_ok_valid (shuffle invalid_links : Nat → List Nat) :
    ∀ (fuel k : Nat) (d : List (Nat × Nat)),
      loopGo shuffle invalid_links k fuel = .ok d → is_valid d invalid_links = true := by
  intro fuel
  induction fuel with
  | zero =>
    intro k d h
    rw [loopGo] at h
    by_cases hv : is_valid (dictize (shuffle k)) invalid_links = true
    · simp only [hv, if_true] at h
      cases h
      exact hv
    · simp only [Bool.not_eq_true] at hv
      simp [hv] at h
  | succ f ih =>
    intro k d h
    rw [loopGo] at h
    by_cases hv : is_valid (dictize (shuffle k)) invalid_links = true
    · simp only [hv, if_true] at h
      cases h
      exact hv
    · simp only [Bool.not_eq_true] at hv
      simp only [hv, Bool.false_eq_true, if_false] at h
      exact ih (k + 1) d h

theorem perm_pair_cases (l : List Nat) (h : l.Perm [1, 2]) : l = [1, 2] ∨ l = [2, 1] := by
  have hlen := h.length_eq
  cases l with
  | nil => simp at hlen
  | cons a t =>
    cases t with
    | nil => simp at hlen
    | cons b u =>
      cases u with
      | cons c w => simp at hlen
      | nil =>
        have ha : a ∈ [1, 2] := h.subset (by simp)
        have hb : b ∈ [1, 2] := h.subset (by simp)
        have hnd : ([a, b] : List Nat).Nodup := h.nodup_iff.mpr (by decide)
        simp only [List.mem_cons, List.mem_singleton, List.not_mem_nil, or_false] at ha hb
        simp only [List.nodup_cons, List.mem_singleton, List.not_mem_nil,
          not_false_iff, and_true, List.nodup_nil] at hnd
        rcases ha with rfl | rfl <;> rcases hb with rfl | rfl <;> simp_all

theorem dictize_perm12_invalid (l : List Nat) (h : l.Perm [1, 2]) :
    is_valid (dictize l) badInvalid = false := by
  rcases perm_pair_cases l h with rfl | rfl <;> decide

theorem loopGo_infeasible (users : List Nat) (invalid_links shuffle : Nat → List Nat)
    (hsh : ∀ j, (shuffle j).Perm users)
    (hinf : ∀ l2, l2.Perm users → is_valid (dictize l2) invalid_links = false) :
    ∀ (fuel k : Nat), loopGo shuffle invalid_links k fuel = .error "Could not solve." := by
  intro fuel
  induction fuel with
  | zero =>
    intro k
    rw [loopGo]
    simp [hinf _ (hsh k)]
  | succ f ih =>
    intro k
    rw [loopGo]
    simp [hinf _ (hsh k), ih (k + 1)]

/-! ## The membership-store invariant -/

/-- No participant is simultaneously in `__user_to_group` and
`__pending_requests`. -/
def mutualExclusive (s : GroupState) : Prop :=
  ∀ uid : Nat,
    ((dlookup s.user_to_group uid).isSome && (dlookup s.pending_requests uid).isSome) = false

theorem add_pending_request_shape (s : GroupState) (u : Nat) (gid : PyVal) :
    (∃ e, add_pending_request s u gid = .error e) ∨
    (dlookup s.user_to_group u = none ∧
      add_pending_request s u gid =
        .ok { s with pending_requests :=
                dinsert s.pending_requests u (dlookupD s.pending_requests u [] ++ [gid]) }) := by
  unfold add_pending_request
  split_ifs with h1 h2
  · exact .inl ⟨_, rfl⟩
  · exact .inl ⟨_, rfl⟩
  · refine .inr ⟨?_, rfl⟩
    cases hc : dlookup s.user_to_group u with
    | none => rfl
    | some g =>
      rw [hc] at h2
      simp at h2

theorem approve_pending_request_shape (s : GroupState) (u : Nat) (gid : PyVal) :
    (∃ e, approve_pending_request s u gid = .error e) ∨
    approve_pending_request s u gid =
      .ok { s with user_to_group := dinsert s.user_to_group u gid,
                   pending_requests := dpop s.pending_requests u } := by
  unfold approve_pending_request
  split_ifs with h1 h2
  · exact .inl ⟨_, rfl⟩
  · exact .inr rfl
  · exact .inl ⟨_, rfl⟩

theorem remove_user_from_group_shape (s : GroupState) (u : Nat) :
    (∃ e, remove_user_from_group s u = .error e) ∨
    remove_user_from_group s u = .ok { s with user_to_group := dpop s.user_to_group u } := by
  cases hc : dlookup s.user_to_group u with
  | none =>
    left
    exact ⟨.notInAnyGroup, by unfold remove_user_from_group; rw [hc]⟩
  | some g =>
    right
    unfold remove_user_from_group
    rw [hc]

theorem remove_user_from_pending_group_shape (s : GroupState) (u : Nat) :
    (∃ e, remove_user_from_pending_group s u = .error e) ∨
    remove_user_from_pending_group s u =
      .ok { s with pending_requests := dpop s.pending_requests u } := by
  cases hc : dlookup s.pending_requests u with
  | none =>
    left
    exact ⟨.notPendingAnyGroup, by unfold remove_user_from_pending_group; rw [hc]⟩
  | some g =>
    right
    unfold remove_user_from_pending_group
    rw [hc]

theorem applyOp_mutualExclusive (s : GroupState) (op : StoreOp)
    (h : mutualExclusive s) : mutualExclusive (applyOp s op) := by
  intro uid
  cases op with
  | addGroup g =>
    exact h uid
  | addPending u gid =>
    rcases add_pending_request_shape s u gid with ⟨e, he⟩ | ⟨hu, he⟩
    · rw [applyOp, he]
      exact h uid
    · rw [applyOp, he]
      show ((dlookup s.user_to_group uid).isSome &&
        (dlookup (dinsert s.pending_requests u
          (dlookupD s.pending_requests u [] ++ [gid])) uid).isSome) = false
      by_cases huu : uid = u
      · subst huu
        rw [hu]
        simp
      · rw [dlookup_dinsert_ne _ _ _ _ huu]
        exact h uid
  | approve u gid =>
    rcases approve_pending_request_shape s u gid with ⟨e, he⟩ | he
    · rw [applyOp, he]
      exact h uid
    · rw [applyOp, he]
      show ((dlookup (dinsert s.user_to_group u gid) uid).isSome &&
        (dlookup (dpop s.pending_requests u) uid).isSome) = false
      by_cases huu : uid = u
      · subst huu
        rw [dlookup_dpop_self]
        simp
      · rw [dlookup_dinsert_ne _ _ _ _ huu, dlookup_dpop_ne _ _ _ huu]
        exact h uid
  | removeFromGroup u =>
    rcases remove_user_from_group_shape s u with ⟨e, he⟩ | he
    · rw [applyOp, he]
      exact h uid
    · rw [applyOp, he]
      show ((dlookup (dpop s.user_to_group u) uid).isSome &&
        (dlookup s.pending_requests uid).isSome) = false
      by_cases huu : uid = u
      · subst huu
        rw [dlookup_dpop_self]
        simp
      · rw [dlookup_dpop_ne _ _ _ huu]
        exact h uid
  | removeFromPending u =>
    rcases remove_user_from_pending_group_shape s u with ⟨e, he⟩ | he
    · rw [applyOp, he]
      exact h uid
    · rw [applyOp, he]
      show ((dlookup s.user_to_group uid).isSome &&
        (dlookup (dpop s.pending_requests u) uid).isSome) = false
      by_cases huu : uid = u
      · subst huu
        rw [dlookup_dpop_self]
        simp
      · rw [dlookup_dpop_ne _ _ _ huu]
        exact h uid

theorem foldl_applyOp_mutualExclusive (ops : List StoreOp) :
    ∀ s : GroupState, mutualExclusive s → mutualExclusive (ops.foldl applyOp s) := by
  induction ops with
  | nil => intro s hs; exact hs
  | cons o os ih =>
    intro s hs
    exact ih (applyOp s o) (applyOp_mutualExclusive s o hs)

/-! ## Claim theorems -/

/-- Claim C1: for every roster of `n ≥ 2` distinct participants and an empty
forbidden relation, the matching run (`secret_santa_pairing` / `loop` /
`dictize`) returns an assignment with exactly `n` giver-receiver pairs, in
which every input participant appears exactly once as a giver (the givers
are a permutation of the duplicate-free roster) and exactly once as a
receiver, and no pair has giver equal to receiver. -/
theorem matching_run_empty_forbidden (l : List Nat) (shuffle : Nat → List Nat) (fuel : Nat)
    (hnd : l.Nodup) (hlen : 2 ≤ l.length) (hsh : (shuffle 0).Perm l) :
    secret_santa_pairing l shuffle fuel = .ok (dictize (shuffle 0)) ∧
    (dictize (shuffle 0)).length = l.length ∧
    ((dictize (shuffle 0)).map Prod.fst).Perm l ∧
    ((dictize (shuffle 0)).map Prod.snd).Perm l ∧
    ∀ p ∈ dictize (shuffle 0), p.1 ≠ p.2 := by
  have hnd0 : (shuffle 0).Nodup := hsh.nodup_iff.mpr hnd
  have hlen0 : (shuffle 0).length = l.length := hsh.length_eq
  refine ⟨?_, ?_, ?_, ?_, ?_⟩
  · show loopGo shuffle (fun _ => []) 0 fuel = .ok (dictize (shuffle 0))
    cases fuel with
    | zero =>
      rw [loopGo]
      simp [is_valid_empty]
    | succ f =>
      rw [loopGo]
      simp [is_valid_empty]
  · rw [dictize_length _ hnd0, hlen0]
  · rw [dictize_map_fst _ hnd0]
    exact (rotR_perm _).trans hsh
  · rw [dictize_map_snd _ hnd0]
    exact hsh
  · exact dictize_no_self _ hnd0 (by rw [hlen0]; exact hlen)

/-- Witness for C1: concrete run on the roster `[1, 2, 3]` shuffled to
`[2, 3, 1]`. -/
theorem matching_run_empty_forbidden_witness :
    secret_santa_pairing [1, 2, 3] (fun _ => [2, 3, 1]) 0 = .ok (dictize [2, 3, 1]) ∧
    (dictize [2, 3, 1]).length = ([1, 2, 3] : List Nat).length ∧
    ((dictize [2, 3, 1]).map Prod.fst).Perm [1, 2, 3] ∧
    ((dictize [2, 3, 1]).map Prod.snd).Perm [1, 2, 3] ∧
    ∀ p ∈ dictize [2, 3, 1], p.1 ≠ p.2 :=
  matching_run_empty_forbidden [1, 2, 3] (fun _ => [2, 3, 1]) 0
    (by decide) (by decide) (by decide)

/-- Claim C2 (amended): every store state reachable by a sequence of
membership-store operations from the empty store keeps `PENDING` and
`JOINED` mutually exclusive — no participant is simultaneously in the
pending-requests map and in the user-to-group map.  (The second half of
the original claim fails: a participant CAN be pending for two groups,
see the counterexample.) -/
theorem membership_pending_joined_exclusive (ops : List StoreOp) (uid : Nat) :
    ((dlookup (runOps ops).user_to_group uid).isSome &&
      (dlookup (runOps ops).pending_requests uid).isSome) = false :=
  foldl_applyOp_mutualExclusive ops emptyState (fun _ => rfl) uid

/-- Counterexample to C2 as stated: after two groups are registered,
`add_pending_request(5, 1)` followed by `add_pending_request(5, 2)`
leaves participant 5 pending for BOTH groups — `add_pending_request`
appends to the pending list instead of rejecting. -/
theorem user_pending_for_two_groups :
    dlookup (runOps [.addGroup groupOne, .addGroup groupTwo,
      .addPending 5 (.int 1), .addPending 5 (.int 2)]).pending_requests 5
      = some [.int 1, .int 2] := rfl

/-- Claim C3: for EVERY participant list and forbidden relation that admit
no valid cyclic assignment (no permutation of the roster makes the
`dictize` cycle pass `is_valid`), the retry loop terminates for every
iteration budget and every stream of shuffles of that roster, failing with
the `ValueError("Could not solve.")` that the command layer reports as
`SolveTimeout`; and whenever `loop` returns an assignment at all, that
assignment satisfies `is_valid` for the given forbidden relation. -/
theorem infeasible_times_out :
    (∀ (users : List Nat) (invalid_links shuffle : Nat → List Nat) (fuel : Nat),
      (∀ j, (shuffle j).Perm users) →
      (∀ l2, l2.Perm users → is_valid (dictize l2) invalid_links = false) →
      loop users invalid_links shuffle fuel = .error "Could not solve.") ∧
    (∀ (users : List Nat) (invalid_links shuffle : Nat → List Nat) (fuel : Nat)
      (d : List (Nat × Nat)),
      loop users invalid_links shuffle fuel = .ok d → is_valid d invalid_links = true) := by
  constructor
  · intro users invalid_links shuffle fuel hsh hinf
    show loopGo shuffle invalid_links 0 fuel = .error "Could not solve."
    exact loopGo_infeasible users invalid_links shuffle hsh hinf fuel 0
  · intro users invalid_links shuffle fuel d h
    exact loopGo_ok_valid shuffle invalid_links fuel 0 d h

/-- Witness for C3: the infeasible two-person instance (the cross pair
`1 → 2` forbidden rules out every cycle of `[1, 2]`) times out with a
budget of 3 iterations, and a concrete successful run yields a valid
assignment. -/
theorem infeasible_times_out_witness :
    loop [1, 2] badInvalid (fun _ => [1, 2]) 3 = .error "Could not solve." ∧
    is_valid [(2, 1), (1, 2)] (fun _ => []) = true :=
  ⟨infeasible_times_out.1 [1, 2] badInvalid (fun _ => [1, 2]) 3
      (fun _ => List.Perm.refl _) (fun l2 h => dictize_perm12_invalid l2 h),
    infeasible_times_out.2 [1, 2] (fun _ => []) (fun _ => [1, 2]) 0
      [(2, 1), (1, 2)] rfl⟩

/-- Claim C4 (code bug): in the state where user 1 administers group 1 and
user 2 is pending for it, the `accept@` callback — the code path
implementing `approve(1, 2)` — reports "User accepted." but leaves user 2
OUT of the user-to-group map and duplicates their pending entry, because
it calls `add_pending_request` instead of `approve_pending_request`; the
store method `approve_pending_request`, which the handler never calls,
would have performed exactly the claimed `PENDING → JOINED` transition. -/
theorem approve_leaves_participant_pending :
    (acceptCallback statePending2 1 2).map
        (fun r => (r.2, dlookup r.1.user_to_group 2, dlookup r.1.pending_requests 2))
      = .ok (.userAccepted, none, some [.int 1, .int 1]) ∧
    approve_pending_request statePending2 2 (.int 1) =
      .ok ⟨[(.int 1, groupOne)], [(2, .int 1)], []⟩ :=
  ⟨rfl, rfl⟩

/-- Claim C5 (code bug): with group 1 registered (under the integer key 1)
and user 2 unaffiliated, `join_group(2, "1")` — the argument always
arrives as a string — replies "Invalid group ID." and leaves the store
unchanged, because the string key never equals the integer key; the
claimed success with state `PENDING(1)` never happens. -/
theorem join_group_always_invalid_id :
    join_group (runOps [.addGroup groupOne]) 2 "1" =
      .ok (runOps [.addGroup groupOne], .invalidGroupId) := rfl

/-- Counterexample to C6 as stated: `create_group` succeeds for user 1 from
the empty store, yet user 1 has NO entry in the user-to-group map — the
membership record is not `JOINED(groupId)`. -/
theorem create_group_no_membership_record :
    (create_group emptyState 1).2 = .groupCreated (.int 1) ∧
    dlookup (create_group emptyState 1).1.user_to_group 1 = none :=
  ⟨rfl, rfl⟩

/-- Claim C6 (amended): a successful `createGroup(p)` registers a group
whose id is `int(p)` — fresh, i.e. distinct from every existing group id —
with `p` as its (unique) admin, but `p`'s membership record stays `NONE`
(`p` is not added to the user-to-group map; adminship is tracked only via
the group's `admin` field); the call is rejected when `p` is in a group,
pending, or already an admin. -/
theorem create_group_amended (s : GroupState) (uid : Nat)
    (hwf : ∀ p ∈ s.groups, p.1 = PyVal.int p.2.admin) :
    ((is_user_in_group_or_pending s uid || is_user_admin s uid) = true →
      create_group s uid = (s, .alreadyInGroup)) ∧
    ((is_user_in_group_or_pending s uid || is_user_admin s uid) = false →
      dlookup s.groups (.int uid) = none ∧
      create_group s uid =
        ({ s with groups := dinsert s.groups (.int uid) ⟨.int uid, uid, defaultSettings⟩ },
          .groupCreated (.int uid)) ∧
      dlookup (create_group s uid).1.user_to_group uid = none) := by
  constructor
  · intro haff
    simp [create_group, haff]
  · intro haff
    rw [Bool.or_eq_false_iff] at haff
    have hin : is_user_in_group s uid = false := by
      have h1 := haff.1
      rw [is_user_in_group_or_pending, Bool.or_eq_false_iff] at h1
      exact h1.2
    have hfresh : dlookup s.groups (.int uid) = none := by
      cases hc : dlookup s.groups (.int uid) with
      | none => rfl
      | some g =>
        have hmem := mem_of_dlookup _ _ _ hc
        have hkey := hwf _ hmem
        have hadm : g.admin = uid := by
          have : uid = g.admin := by simpa using hkey
          exact this.symm
        have hadmin : is_user_admin s uid = true := by
          rw [is_user_admin, List.any_eq_true]
          exact ⟨(PyVal.int uid, g), hmem, by simp [hadm]⟩
        rw [haff.2] at hadmin
        simp at hadmin
    have hcall : create_group s uid =
        ({ s with groups := dinsert s.groups (.int uid) ⟨.int uid, uid, defaultSettings⟩ },
          .groupCreated (.int uid)) := by
      simp [create_group, haff.1, haff.2, add_group]
    refine ⟨hfresh, hcall, ?_⟩
    rw [hcall]
    show dlookup s.user_to_group uid = none
    cases hc2 : dlookup s.user_to_group uid with
    | none => rfl
    | some g =>
      rw [is_user_in_group, hc2] at hin
      simp at hin

/-- Witness for C6 (amended): concretely, user 1 creating a group from the
empty store. -/
theorem create_group_amended_witness :
    dlookup emptyState.groups (.int 1) = none ∧
    create_group emptyState 1 =
      ({ emptyState with
          groups := dinsert emptyState.groups (.int 1) ⟨.int 1, 1, defaultSettings⟩ },
        .groupCreated (.int 1)) ∧
    dlookup (create_group emptyState 1).1.user_to_group 1 = none :=
  (create_group_amended emptyState 1 (by decide)).2 (by rfl)

/-- Counterexample to C7 as stated: user 2 is already pending for group 1,
and re-requesting to join the same group fails with "Invalid group ID."
(`GroupNotFound`) — not with `AlreadyAffiliated`. -/
theorem rejoin_while_pending_wrong_error :
    join_group statePending2 2 "1" = .ok (statePending2, .invalidGroupId) := rfl

/-- Claim C7 (amended): re-requesting a join while already pending fails —
but with `GroupNotFound` ("Invalid group ID.", since the handler compares
its string argument against integer group keys and never reaches its
joined/admin guard, which in any case does not check pending status) —
and the whole store, pending requests included, is returned unchanged, so
the handler never creates a duplicate pending entry. -/
theorem rejoin_while_pending_amended (s : GroupState) (uid : Nat) (arg : String)
    (hwf : ∀ p ∈ s.groups, isIntKey p.1 = true)
    (_hpend : is_user_pending s uid = true) :
    join_group s uid arg = .ok (s, .invalidGroupId) := by
  have hnone : dlookup s.groups (.str arg) = none := by
    cases hc : dlookup s.groups (.str arg) with
    | none => rfl
    | some g =>
      have := hwf _ (mem_of_dlookup _ _ _ hc)
      simp [isIntKey] at this
  rw [join_group, hnone]
  rfl

/-- Witness for C7 (amended): user 2, pending for group 1, re-requests with
the string argument "1". -/
theorem rejoin_while_pending_amended_witness :
    join_group statePending2 2 "1" = .ok (statePending2, .invalidGroupId) ∧
    is_user_pending statePending2 2 = true :=
  ⟨rejoin_while_pending_amended statePending2 2 "1" (by decide) (by decide), by decide⟩

/-- Claim C8 (code bug): after user 1 created their group, `leave_group`
called by that admin raises `AttributeError` (the handler iterates
`context.bot_data` values — here the `GroupState` object — and accesses a
`users` attribute that no class defines) instead of failing with
`AdminCannotLeave`; the store is untouched only because the crash precedes
any mutation. -/
theorem admin_leave_attribute_error :
    leave_group botDataAfterCreate 1 = .error .attributeError := rfl

/-- Claim C9 (code bug): `start_matching` crashes with `AttributeError` on
this iteration's data model before any roster is built; and its roster
construction appends the admin unconditionally — the
`include_admin` guard is commented out — so with
`includeAdminInMatching = false` the admin still enters the matching
roster. -/
theorem start_matching_roster_ignores_flag :
    start_matching botDataAfterCreate 1 = .error .attributeError ∧
    matchingRoster [2, 3] 1 false = [2, 3, 1] ∧
    1 ∈ matchingRoster [2, 3] 1 false := by
  refine ⟨rfl, rfl, ?_⟩
  simp [matchingRoster]

/-- Claim C10: for every duplicate-free roster, the assignment built by
`dictize` is a single cycle through ALL participants: following
giver-to-receiver links reaches every participant from every other in
fewer than `n` steps. -/
theorem dictize_single_cycle (l : List Nat) (hnd : l.Nodup)
    (x : Nat) (hx : x ∈ l) (y : Nat) (hy : y ∈ l) :
    ∃ k, k < l.length ∧ (assignNext (dictize l))^[k] x = y := by
  obtain ⟨i, hi, hxe⟩ := List.mem_iff_getElem.mp hx
  obtain ⟨j, hj, hye⟩ := List.mem_iff_getElem.mp hy
  have hn : 0 < l.length := by omega
  refine ⟨(l.length + j - i) % l.length, Nat.mod_lt _ hn, ?_⟩
  rw [← hxe, ← hye]
  rw [assignNext_iterate l hnd i hi ((l.length + j - i) % l.length) (Nat.mod_lt _ hn)]
  have hidx : (i + (l.length + j - i) % l.length) % l.length = j := by
    rw [Nat.add_mod_mod]
    have h1 : i + (l.length + j - i) = l.length + j := by omega
    rw [h1, Nat.add_mod_left, Nat.mod_eq_of_lt hj]
  simp_rw [hidx]

/-- Witness for C10: in the assignment built from `[1, 2, 3]`, participant
3 is reached from participant 1. -/
theorem dictize_single_cycle_witness :
    ∃ k, k < ([1, 2, 3] : List Nat).length ∧ (assignNext (dictize [1, 2, 3]))^[k] 1 = 3 :=
  dictize_single_cycle [1, 2, 3] (by decide) 1 (by decide) 3 (by decide)

end SecretSanta
